import Mathlib

/-!
Verification of the retail-dashboard filtering and aggregation pipeline
(source: `ex1.py`) against its natural-language specification.

Modelling conventions for the shallow embedding:

* A calendar date is encoded as the natural number `year*10000 + month*100 + day`.
  For the dates produced by the source's parser (`pd.to_datetime`) we always have
  `month ≤ 12 < 100` and `day ≤ 31 < 100`, so this encoding is injective and its
  `Nat` order coincides with chronological order.  The month bucket
  (`date.dt.to_period("M")`, source lines 34 and 268) is then `date / 100`,
  i.e. `year*100 + month`; the string form `"YYYY-MM"` and the month-start
  timestamp used by the monthly views are both in order-preserving bijection
  with this number.
* Numeric measure columns are modelled as `ℚ`.  The one place where the float
  semantics of the underlying dataframe engine is observable — division by a
  zero previous value in `pct_change` — is modelled explicitly by the
  `PValue` type (finite / +inf / -inf / NaN), mirroring IEEE division:
  nonzero/0 gives a signed infinity and 0/0 gives NaN.  `dropna` removes NaN
  rows only, never infinities, exactly as pandas does.
* `st.stop()` control flow in `main` is modelled by the `ViewBundle` record:
  a view that the script never computes in a given run is `none`.
-/

namespace Retail

/-- Canonical weekday order, `DAY_ORDER` in the source (line 14). -/
def DAY_ORDER : List String :=
  ["Monday", "Tuesday", "Wednesday", "Thursday", "Friday", "Saturday", "Sunday"]

/-- The five required category unit columns, `CATEGORY_COLS` in the source (lines 16-22). -/
def CATEGORY_COLS : List String :=
  ["units_carnes", "units_verduras", "units_frutas", "units_lacteos", "units_bebidas"]

/-- Month bucket of an encoded date: `year*100 + month`.  Embeds both
`date.dt.to_period("M").astype(str)` (line 34) and
`date.dt.to_period("M").dt.to_timestamp()` (lines 268, 287), which are
order-isomorphic images of this number. -/
def monthBucket (date : Nat) : Nat := date / 100

/-- One loaded row of the dataset (after `load_data`): all columns of the CSV
plus the derived `month` bucket.  `date` is the encoded calendar date. -/
structure Record where
  date : Nat
  day_of_week : String
  season : String
  total_sales : ℚ
  customer_traffic : ℚ
  conversion_rate : ℚ
  promo_type : String
  units_carnes : ℚ
  units_verduras : ℚ
  units_frutas : ℚ
  units_lacteos : ℚ
  units_bebidas : ℚ
  month : Nat
deriving DecidableEq

/-- One raw CSV row before date parsing.  `date = none` models a date value
that `pd.to_datetime(..., errors="coerce")` turns into `NaT` (line 32). -/
structure RawRow where
  date : Option Nat
  day_of_week : String
  season : String
  total_sales : ℚ
  customer_traffic : ℚ
  conversion_rate : ℚ
  promo_type : String
  units_carnes : ℚ
  units_verduras : ℚ
  units_frutas : ℚ
  units_lacteos : ℚ
  units_bebidas : ℚ
deriving DecidableEq

/-- Record built from a raw row whose date parsed to `d`. -/
def recordOfRow (w : RawRow) (d : Nat) : Record :=
  { date := d
    day_of_week := w.day_of_week
    season := w.season
    total_sales := w.total_sales
    customer_traffic := w.customer_traffic
    conversion_rate := w.conversion_rate
    promo_type := w.promo_type
    units_carnes := w.units_carnes
    units_verduras := w.units_verduras
    units_frutas := w.units_frutas
    units_lacteos := w.units_lacteos
    units_bebidas := w.units_bebidas
    month := monthBucket d }

/-- Embeds `load_data` (lines 25-35): coerce dates, drop rows whose date is
`NaT`, derive the `month` bucket column. -/
def load_data (rows : List RawRow) : List Record :=
  rows.filterMap fun w => w.date.map fun d => recordOfRow w d

/-- A filter specification: the state of the sidebar widgets in
`apply_filters` (lines 38-70).  Month buckets are encoded numbers. -/
structure FilterSpec where
  days : List String
  seasons : List String
  months : List Nat
  date_from : Nat
  date_to : Nat
deriving DecidableEq

/-- Embeds the filtering expression of `apply_filters` (lines 72-78):
a row is kept iff its weekday, season and month are selected and its date
lies in the inclusive slider range. -/
def apply_filters (df : List Record) (s : FilterSpec) : List Record :=
  df.filter fun r =>
    decide (r.day_of_week ∈ s.days ∧ r.season ∈ s.seasons ∧ r.month ∈ s.months ∧
      s.date_from ≤ r.date ∧ r.date ≤ s.date_to)

/-- Distinct values of a list in order of first occurrence
(`pandas.Series.unique`). -/
def firstOccurrences {κ : Type} [DecidableEq κ] (l : List κ) : List κ :=
  l.foldl (fun acc k => if k ∈ acc then acc else acc ++ [k]) []

/-- Distinct values sorted ascending: the group keys that
`DataFrame.groupby(key)` emits (its default is `sort=True`), and also the
sorted option lists of lines 48 and 55. -/
def sortKeys {κ : Type} [DecidableEq κ] [LinearOrder κ] (l : List κ) : List κ :=
  List.insertionSort (fun a b => a ≤ b) (firstOccurrences l)

/-- Rows of a group: all records whose key equals `k`. -/
def groupRows {κ : Type} [DecidableEq κ] (df : List Record) (key : Record → κ) (k : κ) :
    List Record :=
  df.filter fun r => decide (key r = k)

/-- Mean of a list of rationals (sum divided by length). -/
def meanOf (l : List ℚ) : ℚ := l.sum / (l.length : ℚ)

/-- Generic groupby-aggregate: one output row per distinct key, keys sorted
ascending, value `f` of the group's rows. -/
def groupAgg {κ β : Type} [DecidableEq κ] [LinearOrder κ] (df : List Record)
    (key : Record → κ) (f : List Record → β) : List (κ × β) :=
  (sortKeys (df.map key)).map fun k => (k, f (groupRows df key k))

/-- Embeds `groupby(key)[measure].mean()`. -/
def groupMean {κ : Type} [DecidableEq κ] [LinearOrder κ] (df : List Record)
    (key : Record → κ) (measure : Record → ℚ) : List (κ × ℚ) :=
  groupAgg df key fun g => meanOf (g.map measure)

/-- Embeds `groupby(key)[measure].sum()`. -/
def groupSum {κ : Type} [DecidableEq κ] [LinearOrder κ] (df : List Record)
    (key : Record → κ) (measure : Record → ℚ) : List (κ × ℚ) :=
  groupAgg df key fun g => (g.map measure).sum

/-- Position of a weekday name in `DAY_ORDER`; values not in the list get
position 7 (= `DAY_ORDER.length`), matching the `pd.Categorical` conversion
that turns unknown values into `NaN`, which sorts last. -/
def dayIdx (s : String) : Nat := DAY_ORDER.findIdx fun d => d == s

instance {β : Type} : DecidableRel fun (p q : String × β) => dayIdx p.1 ≤ dayIdx q.1 :=
  fun _ _ => Nat.decLe _ _

instance : DecidableRel fun (a b : String) => dayIdx a < dayIdx b :=
  fun _ _ => Nat.decLt _ _

/-- Embeds the `pd.Categorical(..., categories=DAY_ORDER, ordered=True)` +
`sort_values("day_of_week")` step (lines 176-179 and 248-251). -/
def sortPairsByDay {β : Type} (l : List (String × β)) : List (String × β) :=
  List.insertionSort (fun p q => dayIdx p.1 ≤ dayIdx q.1) l

/-- Conversion-by-day view (lines 173-180): mean conversion rate per weekday,
re-sorted into canonical weekday order, with the percentage column added. -/
def convByDay (df : List Record) : List (String × ℚ × ℚ) :=
  (sortPairsByDay (groupMean df (fun r => r.day_of_week) fun r => r.conversion_rate)).map
    fun p => (p.1, p.2, p.2 * 100)

/-- Daily-sales view (line 193): total sales per date. -/
def dailySales (df : List Record) : List (Nat × ℚ) :=
  groupSum df (fun r => r.date) fun r => r.total_sales

/-- Meat-by-day view (lines 245-251): mean `units_carnes` per weekday in
canonical weekday order. -/
def meatByDay (df : List Record) : List (String × ℚ) :=
  sortPairsByDay (groupMean df (fun r => r.day_of_week) fun r => r.units_carnes)

instance : DecidableRel fun (p q : String × ℚ) => q.2 ≤ p.2 :=
  fun p q => inferInstanceAs (Decidable (q.2 ≤ p.2))

/-- Promo-traffic view (lines 227-230): mean traffic per promo type, sorted
descending by value. -/
def promoTraffic (df : List Record) : List (String × ℚ) :=
  List.insertionSort (fun p q => q.2 ≤ p.2)
    (groupMean df (fun r => r.promo_type) fun r => r.customer_traffic)

/-- Value of a dataframe float cell as pandas produces it: finite, a signed
infinity, or NaN. -/
inductive PValue where
  | fin : ℚ → PValue
  | posInf : PValue
  | negInf : PValue
  | nan : PValue
deriving DecidableEq

/-- Growth percentage of one step of `pct_change() * 100` (line 270).
For a zero previous value, IEEE float division yields NaN when the current
value is also zero and a signed infinity otherwise; the finite case is
`(cur - prev) / prev * 100` exactly. -/
def growthVal (prev cur : ℚ) : PValue :=
  if prev = 0 then
    if cur = 0 then PValue.nan
    else if 0 < cur then PValue.posInf
    else PValue.negInf
  else PValue.fin ((cur - prev) / prev * 100)

/-- Embeds `Series.pct_change() * 100` on an ordered value column: the first
entry is NaN, entry `i` (for `i ≥ 1`) is the growth from value `i-1` to
value `i`. -/
def growthSeries : List ℚ → List PValue
  | [] => []
  | x :: xs => PValue.nan :: ((x :: xs).zip xs).map fun pc => growthVal pc.1 pc.2

/-- Embeds `dropna(subset=["growth_pct"])` (line 271): pandas removes NaN
entries only — infinities are not NA and stay. -/
def dropnaGrowth (l : List PValue) : List PValue :=
  l.filter fun v => decide (v ≠ PValue.nan)

/-- Monthly sales totals (lines 267-269): total sales per month bucket. -/
def monthlySales (df : List Record) : List (Nat × ℚ) :=
  groupSum df (fun r => monthBucket r.date) fun r => r.total_sales

/-- Monthly-growth view (lines 267-271): month buckets paired with the
`pct_change()*100` column, with NaN rows dropped. -/
def monthlyGrowth (df : List Record) : List (Nat × PValue) :=
  let ms := monthlySales df
  ((ms.map Prod.fst).zip (growthSeries (ms.map Prod.snd))).filter
    fun p => decide (p.2 ≠ PValue.nan)

/-- Monthly-combo view (lines 286-291): mean traffic and mean conversion rate
per month bucket. -/
def monthlyCombo (df : List Record) : List (Nat × ℚ × ℚ) :=
  groupAgg df (fun r => monthBucket r.date) fun g =>
    (meanOf (g.map fun r => r.customer_traffic), meanOf (g.map fun r => r.conversion_rate))

/-- Value of a category unit column of a record, by column name. -/
def colVal (c : String) (r : Record) : ℚ :=
  if c = "units_carnes" then r.units_carnes
  else if c = "units_verduras" then r.units_verduras
  else if c = "units_frutas" then r.units_frutas
  else if c = "units_lacteos" then r.units_lacteos
  else if c = "units_bebidas" then r.units_bebidas
  else 0

/-- Tests whether the first list is an initial segment of the second. -/
def startsWithChars : List Char → List Char → Bool
  | [], _ => true
  | _ :: _, [] => false
  | p :: ps, c :: cs => p == c && startsWithChars ps cs

/-- Replaces every occurrence of the pattern `p :: ps` in a character list. -/
def replaceAllAux (p : Char) (ps repl : List Char) : List Char → List Char
  | [] => []
  | c :: cs =>
    if startsWithChars (p :: ps) (c :: cs) then
      repl ++ replaceAllAux p ps repl (cs.drop ps.length)
    else c :: replaceAllAux p ps repl cs
termination_by s => s.length
decreasing_by
  · simp [List.length_drop]
    omega
  · simp

/-- Embeds Python string `replace(pattern, replacement)` with `regex=False`:
every occurrence of the pattern is replaced; an empty pattern leaves the
string unchanged. -/
def replaceAll (s pat repl : String) : String :=
  match pat.data with
  | [] => s
  | p :: ps => String.mk (replaceAllAux p ps repl.data s.data)

/-- Embeds the missing-column check of line 206. -/
def missing_cols (cols : List String) : List String :=
  CATEGORY_COLS.filter fun c => decide (c ∉ cols)

/-- Category-share view (lines 211-213): each category column summed over all
rows, names with `units_` removed (`str.replace("units_", "", regex=False)`). -/
def categoryShare (df : List Record) : List (String × ℚ) :=
  CATEGORY_COLS.map fun c => (replaceAll c "units_" "", (df.map (colVal c)).sum)

/-- A loaded dataframe: its column set (from the CSV header) and its rows.
Rows carry every possible field; `cols` records which columns actually exist,
which is all the missing-column check of line 206 inspects. -/
structure DataFrame where
  cols : List String
  rows : List Record
deriving DecidableEq

/-- Outcome of one run of `main` (lines 120-319).  A view is `none` when the
script stops (`st.stop()`) before computing it, `some` when it is computed. -/
structure ViewBundle where
  empty_data : Bool
  conv_by_day : Option (List (String × ℚ × ℚ))
  daily_sales : Option (List (Nat × ℚ))
  schema_error : Option (List String)
  category_share : Option (List (String × ℚ))
  promo_traffic : Option (List (String × ℚ))
  meat_by_day : Option (List (String × ℚ))
  monthly_growth : Option (List (Nat × PValue))
  monthly_combo : Option (List (Nat × ℚ × ℚ))
deriving DecidableEq

/-- Embeds the control flow of `main`: filter; if empty, warn and stop
(lines 128-130); compute conversion-by-day and daily-sales (lines 173-204);
check category columns and stop with an error naming all missing columns if
any are absent (lines 206-209); otherwise compute the remaining views
(lines 211-319). -/
def main (df : DataFrame) (s : FilterSpec) : ViewBundle :=
  let filtered := apply_filters df.rows s
  if filtered = [] then
    { empty_data := true, conv_by_day := none, daily_sales := none, schema_error := none,
      category_share := none, promo_traffic := none, meat_by_day := none,
      monthly_growth := none, monthly_combo := none }
  else
    let missing := missing_cols df.cols
    if missing = [] then
      { empty_data := false, conv_by_day := some (convByDay filtered),
        daily_sales := some (dailySales filtered), schema_error := none,
        category_share := some (categoryShare filtered),
        promo_traffic := some (promoTraffic filtered),
        meat_by_day := some (meatByDay filtered),
        monthly_growth := some (monthlyGrowth filtered),
        monthly_combo := some (monthlyCombo filtered) }
    else
      { empty_data := false, conv_by_day := some (convByDay filtered),
        daily_sales := some (dailySales filtered), schema_error := some missing,
        category_share := none, promo_traffic := none, meat_by_day := none,
        monthly_growth := none, monthly_combo := none }

/-- Smallest date of a record set (`df["date"].min()`, line 62). -/
def minDate (df : List Record) : Nat :=
  match df with
  | [] => 0
  | r :: rs => rs.foldl (fun m x => min m x.date) r.date

/-- Largest date of a record set (`df["date"].max()`, line 63). -/
def maxDate (df : List Record) : Nat :=
  match df with
  | [] => 0
  | r :: rs => rs.foldl (fun m x => max m x.date) r.date

/-- Default filter specification built in `apply_filters` (lines 41-70):
every weekday of `DAY_ORDER` present in the data, all seasons and months
present (sorted), and the full observed date range. -/
def defaultSpec (df : List Record) : FilterSpec :=
  { days := DAY_ORDER.filter fun d => decide (d ∈ df.map fun r => r.day_of_week)
    seasons := sortKeys (df.map fun r => r.season)
    months := sortKeys (df.map fun r => r.month)
    date_from := minDate df
    date_to := maxDate df }

/-- Concrete raw CSV row used by the witnesses: parseable date. -/
def sampleRaw : RawRow :=
  { date := some 20240115, day_of_week := "Monday", season := "Winter", total_sales := 100,
    customer_traffic := 10, conversion_rate := 1/2, promo_type := "none",
    units_carnes := 1, units_verduras := 2, units_frutas := 3, units_lacteos := 4,
    units_bebidas := 5 }

/-- Concrete record used by the witnesses: a Monday in January 2024. -/
def sampleRec : Record :=
  { date := 20240115, day_of_week := "Monday", season := "Winter", total_sales := 100,
    customer_traffic := 10, conversion_rate := 1/2, promo_type := "none",
    units_carnes := 1, units_verduras := 2, units_frutas := 3, units_lacteos := 4,
    units_bebidas := 5, month := 202401 }

/-- Concrete record used by the witnesses: a Tuesday in January 2024. -/
def recTue : Record :=
  { sampleRec with date := 20240116, day_of_week := "Tuesday" }

/-- Concrete record used by the counterexamples: total sales 0 in January 2024. -/
def recJanZero : Record :=
  { sampleRec with date := 20240110, total_sales := 0 }

/-- Concrete record used by the counterexamples: total sales 150 in February 2024. -/
def recFeb : Record :=
  { sampleRec with
    date := 20240210
    day_of_week := "Saturday"
    total_sales := 150
    month := 202402 }

/-- Column list of the full CSV schema. -/
def fullCols : List String :=
  ["date", "day_of_week", "season", "total_sales", "customer_traffic", "conversion_rate",
   "promo_type", "units_carnes", "units_verduras", "units_frutas", "units_lacteos",
   "units_bebidas", "month"]

/-- Column list with `units_carnes` absent, for the schema-error scenarios. -/
def colsNoCarnes : List String :=
  ["date", "day_of_week", "season", "total_sales", "customer_traffic", "conversion_rate",
   "promo_type", "units_verduras", "units_frutas", "units_lacteos", "units_bebidas", "month"]

/-- A concrete loaded dataframe with the full schema and one record. -/
def dfFull : DataFrame := { cols := fullCols, rows := [sampleRec] }

/-- A concrete loaded dataframe whose header lacks `units_carnes`. -/
def dfNoCarnes : DataFrame := { cols := colsNoCarnes, rows := [sampleRec] }

/-- A permissive filter specification that keeps every sample record. -/
def specAll : FilterSpec :=
  { days := ["Monday", "Tuesday", "Saturday"], seasons := ["Winter"],
    months := [202401, 202402], date_from := 20240101, date_to := 20241231 }

/-- A filter specification whose day selection is empty, so nothing passes. -/
def specNone : FilterSpec :=
  { days := [], seasons := [], months := [], date_from := 0, date_to := 0 }

/-- C1: a record is in the filter output iff it is in the input and satisfies
all five predicates conjunctively; consequently the output is a sublist
(hence subset) of the input. -/
theorem apply_filters_spec (df : List Record) (s : FilterSpec) (r : Record) :
    (r ∈ apply_filters df s ↔
      r ∈ df ∧ r.day_of_week ∈ s.days ∧ r.season ∈ s.seasons ∧ r.month ∈ s.months ∧
        s.date_from ≤ r.date ∧ r.date ≤ s.date_to) ∧
    apply_filters df s ⊆ df := by
  constructor
  · simp [apply_filters, List.mem_filter, and_assoc]
  · exact (List.filter_sublist _).subset

/-- C7: loading never fails on an unparseable date; exactly the rows whose
date parses are kept (in order), each loaded record's date comes from its
raw row's parsed (non-null) date, and its month bucket is derived from it. -/
theorem load_drops_unparseable (rows : List RawRow) :
    (load_data rows).length = (rows.filter fun w => w.date.isSome).length ∧
    ∀ rec ∈ load_data rows, (∃ w ∈ rows, w.date = some rec.date ∧ rec = recordOfRow w rec.date)
      ∧ rec.month = monthBucket rec.date := by
  constructor
  · induction rows with
    | nil => rfl
    | cons w ws ih =>
      cases h : w.date <;> simp [load_data, List.filterMap_cons, h, List.filter_cons] at ih ⊢ <;>
        simpa using ih
  · intro rec hrec
    simp only [load_data, List.mem_filterMap, Option.map_eq_some'] at hrec
    obtain ⟨w, hw, d, hd, rfl⟩ := hrec
    refine ⟨⟨w, hw, ?_, rfl⟩, rfl⟩
    simpa [recordOfRow] using hd

/-! Helper lemmas about the aggregation primitives. -/

theorem mem_step_firstOcc {κ : Type} [DecidableEq κ] (acc : List κ) (k a : κ) :
    (a ∈ if k ∈ acc then acc else acc ++ [k]) ↔ a ∈ acc ∨ a = k := by
  split
  · constructor
    · exact fun h => Or.inl h
    · rintro (h | rfl)
      · exact h
      · assumption
  · simp [List.mem_append]

theorem mem_foldl_firstOcc {κ : Type} [DecidableEq κ] (l : List κ) (acc : List κ) (a : κ) :
    a ∈ l.foldl (fun acc k => if k ∈ acc then acc else acc ++ [k]) acc ↔ a ∈ acc ∨ a ∈ l := by
  induction l generalizing acc with
  | nil => simp
  | cons k ks ih =>
    rw [List.foldl_cons, ih, mem_step_firstOcc]
    simp only [List.mem_cons]
    tauto

theorem nodup_foldl_firstOcc {κ : Type} [DecidableEq κ] (l : List κ) (acc : List κ)
    (hacc : acc.Nodup) :
    (l.foldl (fun acc k => if k ∈ acc then acc else acc ++ [k]) acc).Nodup := by
  induction l generalizing acc with
  | nil => exact hacc
  | cons k ks ih =>
    rw [List.foldl_cons]
    apply ih
    split
    · exact hacc
    · simp [List.nodup_append, hacc]
      assumption

theorem mem_firstOccurrences {κ : Type} [DecidableEq κ] (l : List κ) (a : κ) :
    a ∈ firstOccurrences l ↔ a ∈ l := by
  simp [firstOccurrences, mem_foldl_firstOcc]

theorem nodup_firstOccurrences {κ : Type} [DecidableEq κ] (l : List κ) :
    (firstOccurrences l).Nodup :=
  nodup_foldl_firstOcc l [] List.nodup_nil

theorem mem_sortKeys {κ : Type} [DecidableEq κ] [LinearOrder κ] (l : List κ) (a : κ) :
    a ∈ sortKeys l ↔ a ∈ l := by
  simp [sortKeys, mem_firstOccurrences]

theorem nodup_sortKeys {κ : Type} [DecidableEq κ] [LinearOrder κ] (l : List κ) :
    (sortKeys l).Nodup :=
  (List.perm_insertionSort _ _).nodup_iff.mpr (nodup_firstOccurrences l)

theorem sorted_le_sortKeys {κ : Type} [DecidableEq κ] [LinearOrder κ] (l : List κ) :
    (sortKeys l).Sorted (· ≤ ·) :=
  List.sorted_insertionSort _ _

theorem pairwise_lt_sortKeys {κ : Type} [DecidableEq κ] [LinearOrder κ] (l : List κ) :
    (sortKeys l).Pairwise (· < ·) :=
  List.Sorted.lt_of_le (sorted_le_sortKeys l) (nodup_sortKeys l)

theorem groupAgg_keys {κ β : Type} [DecidableEq κ] [LinearOrder κ] (df : List Record)
    (key : Record → κ) (f : List Record → β) :
    (groupAgg df key f).map Prod.fst = sortKeys (df.map key) := by
  simp [groupAgg, List.map_map, Function.comp_def]

theorem zip_map_fst_sublist {α β : Type} (A : List α) (B : List β) :
    ((A.zip B).map Prod.fst).Sublist A := by
  induction A generalizing B with
  | nil => simp
  | cons a A ih =>
    cases B with
    | nil => simp
    | cons b B => simpa using (ih B).cons₂ a

theorem dayIdx_inj : ∀ a ∈ DAY_ORDER, ∀ b ∈ DAY_ORDER, dayIdx a = dayIdx b → a = b := by
  decide

theorem sortPairsByDay_keys {β : Type} (l : List (String × β))
    (hnd : (l.map Prod.fst).Nodup) (hmem : ∀ p ∈ l, p.1 ∈ DAY_ORDER) :
    (sortPairsByDay l).map Prod.fst =
      DAY_ORDER.filter fun d => decide (d ∈ l.map Prod.fst) := by
  have hperm : List.Perm (sortPairsByDay l) l := List.perm_insertionSort _ _
  have hpermk : List.Perm ((sortPairsByDay l).map Prod.fst) (l.map Prod.fst) := hperm.map _
  have hndk : ((sortPairsByDay l).map Prod.fst).Nodup := hpermk.nodup_iff.mpr hnd
  letI : IsTotal (String × β) fun p q => dayIdx p.1 ≤ dayIdx q.1 :=
    ⟨fun _ _ => Nat.le_total _ _⟩
  letI : IsTrans (String × β) fun p q => dayIdx p.1 ≤ dayIdx q.1 :=
    ⟨fun _ _ _ => Nat.le_trans⟩
  have hs : (sortPairsByDay l).Pairwise fun p q => dayIdx p.1 ≤ dayIdx q.1 :=
    List.sorted_insertionSort _ l
  have hsk : ((sortPairsByDay l).map Prod.fst).Pairwise fun a b => dayIdx a ≤ dayIdx b :=
    List.pairwise_map.mpr hs
  have hmemk : ∀ a ∈ (sortPairsByDay l).map Prod.fst, a ∈ DAY_ORDER := by
    intro a ha
    obtain ⟨p, hp, rfl⟩ := List.mem_map.mp (hpermk.mem_iff.mp ha)
    exact hmem p hp
  have hslt : ((sortPairsByDay l).map Prod.fst).Pairwise fun a b => dayIdx a < dayIdx b := by
    refine List.Pairwise.imp_of_mem ?_ (hsk.and hndk)
    intro a b ha hb hab
    exact Nat.lt_of_le_of_ne hab.1
      (fun heq => hab.2 (dayIdx_inj a (hmemk a ha) b (hmemk b hb) heq))
  have hdo_nodup : DAY_ORDER.Nodup := by decide
  have hdo_pw : DAY_ORDER.Pairwise fun a b => dayIdx a < dayIdx b := by decide
  have hndf : (DAY_ORDER.filter fun d => decide (d ∈ l.map Prod.fst)).Nodup :=
    hdo_nodup.filter _
  have hsltf : (DAY_ORDER.filter fun d => decide (d ∈ l.map Prod.fst)).Pairwise
      fun a b => dayIdx a < dayIdx b :=
    hdo_pw.filter _
  have hpf : List.Perm ((sortPairsByDay l).map Prod.fst)
      (DAY_ORDER.filter fun d => decide (d ∈ l.map Prod.fst)) := by
    rw [List.perm_ext_iff_of_nodup hndk hndf]
    intro a
    simp only [List.mem_filter, decide_eq_true_eq]
    constructor
    · intro ha
      exact ⟨hmemk a ha, hpermk.mem_iff.mp ha⟩
    · intro ha
      exact hpermk.mem_iff.mpr ha.2
  letI : IsAntisymm String fun a b => dayIdx a < dayIdx b :=
    ⟨fun _ _ h1 h2 => absurd h1 (Nat.lt_asymm h2)⟩
  exact List.eq_of_perm_of_sorted hpf hslt hsltf

theorem dayGroup_keys (df : List Record) (measure : Record → ℚ)
    (hdw : ∀ r ∈ df, r.day_of_week ∈ DAY_ORDER) :
    (sortPairsByDay (groupMean df (fun r => r.day_of_week) measure)).map Prod.fst =
      DAY_ORDER.filter fun d => decide (d ∈ df.map fun r => r.day_of_week) := by
  have hkeys : (groupMean df (fun r => r.day_of_week) measure).map Prod.fst =
      sortKeys (df.map fun r => r.day_of_week) := groupAgg_keys df _ _
  have hnd : ((groupMean df (fun r => r.day_of_week) measure).map Prod.fst).Nodup := by
    rw [hkeys]
    exact nodup_sortKeys _
  have hmem : ∀ p ∈ groupMean df (fun r => r.day_of_week) measure, p.1 ∈ DAY_ORDER := by
    intro p hp
    have h1 : p.1 ∈ (groupMean df (fun r => r.day_of_week) measure).map Prod.fst :=
      List.mem_map_of_mem _ hp
    rw [hkeys, mem_sortKeys] at h1
    obtain ⟨r, hr, hre⟩ := List.mem_map.mp h1
    exact hre ▸ hdw r hr
  rw [sortPairsByDay_keys _ hnd hmem]
  refine List.filter_congr ?_
  intro d _
  rw [decide_eq_decide, hkeys, mem_sortKeys]

theorem foldl_min_le (xs : List Record) (init : Nat) :
    (xs.foldl (fun m x => min m x.date) init ≤ init) ∧
    ∀ x ∈ xs, xs.foldl (fun m x => min m x.date) init ≤ x.date := by
  induction xs generalizing init with
  | nil => simp
  | cons y ys ih =>
    rw [List.foldl_cons]
    refine ⟨le_trans (ih (min init y.date)).1 (min_le_left _ _), ?_⟩
    intro x hx
    rcases List.mem_cons.mp hx with rfl | hx
    · exact le_trans (ih _).1 (min_le_right _ _)
    · exact (ih _).2 x hx

theorem minDate_le (df : List Record) : ∀ r ∈ df, minDate df ≤ r.date := by
  intro r hr
  cases df with
  | nil => cases hr
  | cons x xs =>
    rcases List.mem_cons.mp hr with rfl | hr
    · exact (foldl_min_le xs r.date).1
    · exact (foldl_min_le xs x.date).2 r hr

theorem le_foldl_max (xs : List Record) (init : Nat) :
    (init ≤ xs.foldl (fun m x => max m x.date) init) ∧
    ∀ x ∈ xs, x.date ≤ xs.foldl (fun m x => max m x.date) init := by
  induction xs generalizing init with
  | nil => simp
  | cons y ys ih =>
    rw [List.foldl_cons]
    refine ⟨le_trans (le_max_left _ _) (ih (max init y.date)).1, ?_⟩
    intro x hx
    rcases List.mem_cons.mp hx with rfl | hx
    · exact le_trans (le_max_right _ _) (ih _).1
    · exact (ih _).2 x hx

theorem le_maxDate (df : List Record) : ∀ r ∈ df, r.date ≤ maxDate df := by
  intro r hr
  cases df with
  | nil => cases hr
  | cons x xs =>
    rcases List.mem_cons.mp hr with rfl | hr
    · exact (le_foldl_max xs r.date).1
    · exact (le_foldl_max xs x.date).2 r hr

/-- C2: the views grouped on `day_of_week` (conversion-by-day and meat-by-day)
emit their keys exactly as `DAY_ORDER` restricted to the weekdays present in
the input — so the keys are in canonical Monday-to-Sunday order regardless of
input order, and no absent weekday is ever emitted.  The hypothesis is the
data-model invariant that `day_of_week` holds one of the seven weekday
names. -/
theorem day_views_canonical_order (df : List Record)
    (hdw : ∀ r ∈ df, r.day_of_week ∈ DAY_ORDER) :
    (convByDay df).map (fun t => t.1) =
      (DAY_ORDER.filter fun d => decide (d ∈ df.map fun r => r.day_of_week)) ∧
    (meatByDay df).map Prod.fst =
      (DAY_ORDER.filter fun d => decide (d ∈ df.map fun r => r.day_of_week)) := by
  constructor
  · have h := dayGroup_keys df (fun r => r.conversion_rate) hdw
    simpa [convByDay, List.map_map, Function.comp_def] using h
  · simpa [meatByDay] using dayGroup_keys df (fun r => r.units_carnes) hdw

/-- Witness for C2 at a concrete two-record input given in reverse weekday
order (Tuesday before Monday). -/
theorem day_views_canonical_order_witness :
    (∀ r ∈ [recTue, sampleRec], r.day_of_week ∈ DAY_ORDER) ∧
    ((convByDay [recTue, sampleRec]).map (fun t => t.1) =
      (DAY_ORDER.filter fun d => decide (d ∈ [recTue, sampleRec].map fun r => r.day_of_week)) ∧
    (meatByDay [recTue, sampleRec]).map Prod.fst =
      (DAY_ORDER.filter fun d => decide (d ∈ [recTue, sampleRec].map fun r => r.day_of_week))) :=
  ⟨by decide, day_views_canonical_order _ (by decide)⟩

/-- C10: the three time-keyed views (daily sales by date, monthly growth and
monthly combo by month bucket) emit their rows with strictly increasing keys,
so keys are chronological and pairwise distinct (one row per key). -/
theorem time_views_ascending (df : List Record) :
    ((dailySales df).map Prod.fst).Pairwise (· < ·) ∧
    ((monthlyGrowth df).map Prod.fst).Pairwise (· < ·) ∧
    ((monthlyCombo df).map Prod.fst).Pairwise (· < ·) := by
  refine ⟨?_, ?_, ?_⟩
  · have h : (dailySales df).map Prod.fst = sortKeys (df.map fun r => r.date) := by
      simp only [dailySales, groupSum]
      exact groupAgg_keys df _ _
    rw [h]
    exact pairwise_lt_sortKeys _
  · have hms : (monthlySales df).map Prod.fst =
        sortKeys (df.map fun r => monthBucket r.date) := by
      simp only [monthlySales, groupSum]
      exact groupAgg_keys df _ _
    have hpw : ((monthlySales df).map Prod.fst).Pairwise (· < ·) := by
      rw [hms]
      exact pairwise_lt_sortKeys _
    have hsub : ((monthlyGrowth df).map Prod.fst).Sublist
        ((monthlySales df).map Prod.fst) := by
      simp only [monthlyGrowth]
      exact List.Sublist.trans ((List.filter_sublist _).map _) (zip_map_fst_sublist _ _)
    exact List.Pairwise.sublist hsub hpw
  · have h : (monthlyCombo df).map Prod.fst =
        sortKeys (df.map fun r => monthBucket r.date) := by
      simp only [monthlyCombo]
      exact groupAgg_keys df _ _
    rw [h]
    exact pairwise_lt_sortKeys _

/-- C9: with the default filter specification (all weekdays, seasons and
months present in the data, full observed date range) the Filter Engine
returns the loaded record set unchanged.  The hypotheses are that the data is
nonempty (the source computes the slider bounds from an observed min and max)
and the data-model invariant that `day_of_week` holds one of the seven
canonical weekday names. -/
theorem default_filters_identity (df : List Record) (_hne : df ≠ [])
    (hdw : ∀ r ∈ df, r.day_of_week ∈ DAY_ORDER) :
    apply_filters df (defaultSpec df) = df := by
  unfold apply_filters defaultSpec
  rw [List.filter_eq_self]
  intro r hr
  rw [decide_eq_true_eq]
  exact ⟨List.mem_filter.mpr ⟨hdw r hr,
      by rw [decide_eq_true_eq]; exact List.mem_map_of_mem _ hr⟩,
    (mem_sortKeys _ _).mpr (List.mem_map_of_mem _ hr),
    (mem_sortKeys _ _).mpr (List.mem_map_of_mem _ hr),
    minDate_le df r hr, le_maxDate df r hr⟩

/-- Witness for C9 at a concrete one-record data set. -/
theorem default_filters_identity_witness :
    ([sampleRec] ≠ []) ∧ (∀ r ∈ [sampleRec], r.day_of_week ∈ DAY_ORDER) ∧
    apply_filters [sampleRec] (defaultSpec [sampleRec]) = [sampleRec] :=
  ⟨by decide, by decide, default_filters_identity _ (by decide) (by decide)⟩

theorem growthSeries_length (l : List ℚ) : (growthSeries l).length = l.length := by
  cases l with
  | nil => rfl
  | cons x xs =>
    simp [growthSeries, List.length_zip]

theorem growthVal_mem (l : List ℚ) (i : Nat) (h : i + 1 < l.length) :
    growthVal l[i] l[i+1] ∈ growthSeries l := by
  cases l with
  | nil => simp at h
  | cons x xs =>
    have hxs : i < xs.length := by
      simp at h
      omega
    have hzlen : i < ((x :: xs).zip xs).length := by
      simp [List.length_zip]
      omega
    apply List.mem_cons_of_mem
    refine List.mem_map.mpr ⟨((x :: xs).zip xs)[i], List.getElem_mem hzlen, ?_⟩
    rw [List.getElem_zip]
    simp

/-- C3: on totals with no zero entry, the monthly-growth series after the NaN
drop has exactly one entry fewer than the input — the first period is absent,
not emitted as zero or null — and entry `i` is
`(value[i+1] - value[i]) / value[i] * 100` for consecutive values. -/
theorem growth_drops_first_only (l : List ℚ) (h : ∀ x ∈ l, x ≠ 0) :
    dropnaGrowth (growthSeries l) =
      (l.zip l.tail).map (fun pc => PValue.fin ((pc.2 - pc.1) / pc.1 * 100)) ∧
    (dropnaGrowth (growthSeries l)).length = l.length - 1 := by
  have key : dropnaGrowth (growthSeries l) =
      (l.zip l.tail).map fun pc => PValue.fin ((pc.2 - pc.1) / pc.1 * 100) := by
    cases l with
    | nil => rfl
    | cons x xs =>
      have hmap : ((x :: xs).zip xs).map (fun pc => growthVal pc.1 pc.2) =
          ((x :: xs).zip xs).map fun pc => PValue.fin ((pc.2 - pc.1) / pc.1 * 100) := by
        refine List.map_congr_left ?_
        intro pc hpc
        obtain ⟨a, b⟩ := pc
        have hp : a ∈ x :: xs := (List.of_mem_zip hpc).1
        rw [growthVal, if_neg (h a hp)]
      rw [growthSeries, dropnaGrowth, List.filter_cons_of_neg (by decide), hmap,
        List.filter_eq_self.mpr]
      · rfl
      · intro a ha
        obtain ⟨pc, _, rfl⟩ := List.mem_map.mp ha
        simp
  refine ⟨key, ?_⟩
  rw [key]
  cases l with
  | nil => rfl
  | cons x xs => simp [List.length_zip]

/-- Witness for C3 at the spec's concrete example: totals 100, 150, 120 give
growth entries 50 and -20 only. -/
theorem growth_drops_first_only_witness :
    (∀ x ∈ [(100 : ℚ), 150, 120], x ≠ 0) ∧
    dropnaGrowth (growthSeries [(100 : ℚ), 150, 120]) = [PValue.fin 50, PValue.fin (-20)] :=
  ⟨by decide, by
    rw [(growth_drops_first_only [(100 : ℚ), 150, 120] (by decide)).1]
    norm_num [List.zip]⟩

/-- C4 counterexample: with monthly totals 0 then 150 the emitted
monthly-growth view is `[(February 2024, +inf)]` — the infinite growth value
produced by the zero previous period is NOT filtered out and appears in the
view. -/
theorem growth_inf_not_filtered_cex :
    monthlyGrowth [recJanZero, recFeb] = [(202402, PValue.posInf)] ∧
    PValue.posInf ∈ (monthlyGrowth [recJanZero, recFeb]).map Prod.snd ∧
    ∀ q : ℚ, PValue.posInf ≠ PValue.fin q := by
  have hms : monthlySales [recJanZero, recFeb] = [(202401, 0), (202402, 150)] := by
    simp [monthlySales, groupSum, groupAgg, sortKeys, firstOccurrences, groupRows,
      recJanZero, recFeb, sampleRec, monthBucket, List.insertionSort, List.orderedInsert]
  have hview : monthlyGrowth [recJanZero, recFeb] = [(202402, PValue.posInf)] := by
    rw [monthlyGrowth, hms]
    norm_num [growthSeries, growthVal, List.zip]
    decide
  refine ⟨hview, ?_, ?_⟩
  · rw [hview]
    simp
  · intro q
    simp

/-- C4 (amended): NaN growth values (the first period, and a zero-to-zero
step) never appear in the emitted series, but when the previous total is zero
and the current total is nonzero the step's growth value is an infinity — not
a finite number — and it IS kept in the emitted series. -/
theorem growth_zero_prev_policy (l : List ℚ) (i : Nat) (h : i + 1 < l.length)
    (hz : l[i] = 0) (hnz : l[i+1] ≠ 0) :
    PValue.nan ∉ dropnaGrowth (growthSeries l) ∧
    growthVal l[i] l[i+1] ∈ dropnaGrowth (growthSeries l) ∧
    ∀ q : ℚ, growthVal l[i] l[i+1] ≠ PValue.fin q := by
  have hgv : growthVal l[i] l[i+1] =
      if 0 < l[i+1] then PValue.posInf else PValue.negInf := by
    rw [growthVal, if_pos hz, if_neg hnz]
  refine ⟨?_, ?_, ?_⟩
  · simp [dropnaGrowth, List.mem_filter]
  · refine List.mem_filter.mpr ⟨growthVal_mem l i h, ?_⟩
    rw [hgv]
    split <;> decide
  · intro q
    rw [hgv]
    split <;> simp

/-- Witness for C4's amended statement at the concrete totals 0 then 150. -/
theorem growth_zero_prev_policy_witness :
    (0 + 1 < ([(0 : ℚ), 150]).length) ∧
    (([(0 : ℚ), 150])[0] = 0) ∧ (([(0 : ℚ), 150])[1] ≠ 0) ∧
    (PValue.nan ∉ dropnaGrowth (growthSeries [(0 : ℚ), 150]) ∧
     growthVal ([(0 : ℚ), 150])[0] ([(0 : ℚ), 150])[1] ∈
       dropnaGrowth (growthSeries [(0 : ℚ), 150]) ∧
     ∀ q : ℚ, growthVal ([(0 : ℚ), 150])[0] ([(0 : ℚ), 150])[1] ≠ PValue.fin q) :=
  ⟨by decide, by decide, by decide,
    growth_zero_prev_policy [(0 : ℚ), 150] 0 (by decide) (by decide) (by decide)⟩

/-- C5: when the filter conjunction selects no record, `main` shows the
no-data warning and stops: every derived view of the cycle is uncomputed
(`none`), with no error and no stale data — a normal terminal state of the
total function `main`. -/
theorem empty_filter_terminal (df : DataFrame) (s : FilterSpec)
    (h : apply_filters df.rows s = []) :
    main df s =
      { empty_data := true, conv_by_day := none, daily_sales := none,
        schema_error := none, category_share := none, promo_traffic := none,
        meat_by_day := none, monthly_growth := none, monthly_combo := none } := by
  simp [main, h]

/-- Witness for C5: the empty day selection filters out the only record. -/
theorem empty_filter_terminal_witness :
    (apply_filters dfFull.rows specNone = []) ∧
    main dfFull specNone =
      { empty_data := true, conv_by_day := none, daily_sales := none,
        schema_error := none, category_share := none, promo_traffic := none,
        meat_by_day := none, monthly_growth := none, monthly_combo := none } :=
  ⟨by decide, empty_filter_terminal _ _ (by decide)⟩

/-- C6 counterexample: with `units_carnes` absent (and a nonempty filtered
set) the schema error names the missing column, but the monthly-growth view
is NOT computed — `st.stop()` halts everything after the check, contradicting
the claim that monthly-growth still computes successfully. -/
theorem schema_stop_halts_growth_cex :
    (main dfNoCarnes specAll).schema_error = some ["units_carnes"] ∧
    (main dfNoCarnes specAll).monthly_growth = none ∧
    apply_filters dfNoCarnes.rows specAll ≠ [] := by
  decide

/-- C6 (amended): when category columns are missing, the error names all
missing columns at once, and exactly the views computed before the check
(conversion-by-day and daily-sales) still compute; every view after the
check — category-share, promo-traffic, meat-by-day, monthly-growth,
monthly-combo — does not run. -/
theorem schema_error_scope (df : DataFrame) (s : FilterSpec)
    (h1 : apply_filters df.rows s ≠ []) (h2 : missing_cols df.cols ≠ []) :
    main df s =
      { empty_data := false,
        conv_by_day := some (convByDay (apply_filters df.rows s)),
        daily_sales := some (dailySales (apply_filters df.rows s)),
        schema_error := some (missing_cols df.cols),
        category_share := none, promo_traffic := none, meat_by_day := none,
        monthly_growth := none, monthly_combo := none } := by
  simp [main, h1, h2]

/-- Witness for the amended C6 at the concrete missing-column dataframe. -/
theorem schema_error_scope_witness :
    (apply_filters dfNoCarnes.rows specAll ≠ []) ∧ (missing_cols dfNoCarnes.cols ≠ []) ∧
    main dfNoCarnes specAll =
      { empty_data := false,
        conv_by_day := some (convByDay (apply_filters dfNoCarnes.rows specAll)),
        daily_sales := some (dailySales (apply_filters dfNoCarnes.rows specAll)),
        schema_error := some (missing_cols dfNoCarnes.cols),
        category_share := none, promo_traffic := none, meat_by_day := none,
        monthly_growth := none, monthly_combo := none } :=
  ⟨by decide, by decide, schema_error_scope _ _ (by decide) (by decide)⟩

theorem category_sum_eq (rows : List Record) :
    (rows.map (colVal "units_carnes")).sum + ((rows.map (colVal "units_verduras")).sum +
      ((rows.map (colVal "units_frutas")).sum + ((rows.map (colVal "units_lacteos")).sum +
      ((rows.map (colVal "units_bebidas")).sum + 0)))) =
    (rows.map fun r => r.units_carnes + r.units_verduras + r.units_frutas +
      r.units_lacteos + r.units_bebidas).sum := by
  induction rows with
  | nil => simp
  | cons r rs ih =>
    simp only [List.map_cons, List.sum_cons]
    have h1 : colVal "units_carnes" r = r.units_carnes := rfl
    have h2 : colVal "units_verduras" r = r.units_verduras := rfl
    have h3 : colVal "units_frutas" r = r.units_frutas := rfl
    have h4 : colVal "units_lacteos" r = r.units_lacteos := rfl
    have h5 : colVal "units_bebidas" r = r.units_bebidas := rfl
    rw [h1, h2, h3, h4, h5]
    linarith [ih]

/-- C8: the category-share view always has exactly five rows; its names are
the column identifiers with the `units_` prefix removed (no residual prefix);
and the five totals sum to the grand total of all category units over all
rows. -/
theorem category_share_spec (rows : List Record) :
    (categoryShare rows).length = 5 ∧
    (categoryShare rows).map Prod.fst = ["carnes", "verduras", "frutas", "lacteos", "bebidas"] ∧
    ((categoryShare rows).map Prod.snd).sum =
      (rows.map fun r => r.units_carnes + r.units_verduras + r.units_frutas +
        r.units_lacteos + r.units_bebidas).sum := by
  refine ⟨rfl, ?_, ?_⟩
  · simp [categoryShare, CATEGORY_COLS, replaceAll, replaceAllAux, startsWithChars]
  · simp only [categoryShare, CATEGORY_COLS, List.map_cons, List.map_nil, List.sum_cons,
      List.sum_nil]
    linarith [category_sum_eq rows]

/-- Witness for C1 at a concrete record set, spec and record. -/
theorem apply_filters_spec_witness :
    (sampleRec ∈ apply_filters [sampleRec] specAll ↔
      sampleRec ∈ [sampleRec] ∧ sampleRec.day_of_week ∈ specAll.days ∧
        sampleRec.season ∈ specAll.seasons ∧ sampleRec.month ∈ specAll.months ∧
        specAll.date_from ≤ sampleRec.date ∧ sampleRec.date ≤ specAll.date_to) ∧
    apply_filters [sampleRec] specAll ⊆ [sampleRec] :=
  apply_filters_spec [sampleRec] specAll sampleRec

/-- Witness for C7 at a concrete raw-row list with one unparseable date. -/
theorem load_drops_unparseable_witness :
    (load_data [{ sampleRaw with date := none }, sampleRaw]).length =
      ([{ sampleRaw with date := none }, sampleRaw].filter fun w => w.date.isSome).length ∧
    ∀ rec ∈ load_data [{ sampleRaw with date := none }, sampleRaw],
      (∃ w ∈ [{ sampleRaw with date := none }, sampleRaw],
        w.date = some rec.date ∧ rec = recordOfRow w rec.date) ∧
      rec.month = monthBucket rec.date :=
  load_drops_unparseable [{ sampleRaw with date := none }, sampleRaw]

/-- Witness for C8 at a concrete one-record set. -/
theorem category_share_spec_witness :
    (categoryShare [sampleRec]).length = 5 ∧
    (categoryShare [sampleRec]).map Prod.fst =
      ["carnes", "verduras", "frutas", "lacteos", "bebidas"] ∧
    ((categoryShare [sampleRec]).map Prod.snd).sum =
      ([sampleRec].map fun r => r.units_carnes + r.units_verduras + r.units_frutas +
        r.units_lacteos + r.units_bebidas).sum :=
  category_share_spec [sampleRec]

/-- Witness for C10 at a concrete two-record set spanning two months. -/
theorem time_views_ascending_witness :
    ((dailySales [recJanZero, recFeb]).map Prod.fst).Pairwise (· < ·) ∧
    ((monthlyGrowth [recJanZero, recFeb]).map Prod.fst).Pairwise (· < ·) ∧
    ((monthlyCombo [recJanZero, recFeb]).map Prod.fst).Pairwise (· < ·) :=
  time_views_ascending [recJanZero, recFeb]

end Retail
